import Mathlib

/-!
Shallow embedding of the sqlboiler core: the filter resolver and config
helpers from the drivers package (TablesFromList, ColumnsFromList,
DefaultInt) and the orchestrator from sqlboiler.go (New, Run, Cleanup,
State.initDriver, State.initTables, checkPKeys, getBasePath).

Go strings are embedded as List Char.  strings.Split(s, ".") is
splitOnDot, strings.Join is strJoin.  A Go (value, error) pair becomes a
product with an Option error component, or an Except where the value is
absent on failure.  Results of calls into packages outside this core
(bdb.Tables, Driver.Open, os.MkdirAll, template loading, go/build
package lookup) are supplied as explicit inputs.
-/

/-- Embedding of strings.Split(s, ".") for a one-character separator:
Go splits at every occurrence of the separator, and the empty string
yields a single empty field. -/
def splitOnDot : List Char → List (List Char)
  | [] => [[]]
  | c :: rest =>
    if c = '.' then [] :: splitOnDot rest
    else
      match splitOnDot rest with
      | [] => [[c]]
      | h :: t => (c :: h) :: t

/-- Embedding of strings.Join(elems, sep). -/
def strJoin (sep : List Char) : List (List Char) → List Char
  | [] => []
  | [x] => x
  | x :: y :: rest => x ++ sep ++ strJoin sep (y :: rest)

/-- Loop body of TablesFromList: for each specifier, split on the dot and
keep splits[0] exactly when the split has one segment. -/
def tablesFromListLoop : List (List Char) → List (List Char)
  | [] => []
  | i :: rest =>
    let splits := splitOnDot i
    if splits.length = 1 then splits.headD [] :: tablesFromListLoop rest
    else tablesFromListLoop rest

/-- TablesFromList takes a whitelist or blacklist and returns the table
names (drivers package).  The empty list is returned unchanged, as in
the Go len-zero shortcut that returns nil. -/
def TablesFromList (list : List (List Char)) : List (List Char) :=
  if list.length = 0 then [] else tablesFromListLoop list

/-- Loop body of ColumnsFromList: split each specifier on the dot, skip
any split without exactly two segments, and keep splits[1] when
splits[0] equals the table name or the wildcard. -/
def columnsFromListLoop (tablename : List Char) : List (List Char) → List (List Char)
  | [] => []
  | i :: rest =>
    let splits := splitOnDot i
    if splits.length ≠ 2 then columnsFromListLoop tablename rest
    else if splits.headD [] = tablename ∨ splits.headD [] = ['*'] then
      splits.getD 1 [] :: columnsFromListLoop tablename rest
    else columnsFromListLoop tablename rest

/-- ColumnsFromList takes a whitelist or blacklist and returns the
columns for a given table (drivers package). -/
def ColumnsFromList (list : List (List Char)) (tablename : List Char) : List (List Char) :=
  if list.length = 0 then [] else columnsFromListLoop tablename list

/-- DefaultInt retrieves a non-zero int or the default value provided
(drivers package). -/
def DefaultInt (value d : Int) : Int :=
  if value = 0 then d else value

/-- Spec-side matcher used to characterise ColumnsFromList: the column
segment of a two-segment specifier whose table segment equals the table
name or the wildcard, nothing for any other specifier. -/
def colMatch (tablename i : List Char) : Option (List Char) :=
  match splitOnDot i with
  | [a, b] => if a = tablename ∨ a = ['*'] then some b else none
  | _ => none

/-- Modelled from the spec: bdb.PrimaryKey (package bdb is outside this
core) — a named, ordered sequence of column names forming the key. -/
structure PrimaryKey where
  name : List Char
  columns : List (List Char)
deriving DecidableEq

/-- Modelled from the spec: bdb.Table (package bdb is outside this
core), restricted to the fields this core reads — the identity Name, the
zero-or-one primary key, and the IsJoinTable flag. -/
structure Table where
  name : List Char
  pkey : Option PrimaryKey
  isJoinTable : Bool
deriving DecidableEq

/-- Postgres connection parameters carried by the Config. -/
structure PostgresConfig where
  user : List Char
  pass : List Char
  dbname : List Char
  host : List Char
  port : Int
  sslmode : List Char
deriving DecidableEq

/-- Config fields read by the orchestrator. -/
structure Config where
  driverName : List Char
  pkgName : List Char
  outFolder : List Char
  baseDir : List Char
  excludeTables : List (List Char)
  noHooks : Bool
  postgres : PostgresConfig
deriving DecidableEq

/-- Modelled from the spec: the driver object set by initDriver.  The
postgres constructor records the connection parameters passed to
drivers.NewPostgresDriver; mock is the in-memory test driver. -/
inductive Driver
  | postgres (user pass dbname host : List Char) (port : Int) (sslmode : List Char)
  | mock
deriving DecidableEq

/-- State holds the global data needed by most pieces to run.  The Go
field Driver is a nil-able interface value, embedded as an Option; the
template-list fields play no role in the checked claims. -/
structure State where
  config : Config
  driver : Option Driver
  tables : List Table
deriving DecidableEq

/-- Error text of errors.New in initDriver. -/
def invalidDriverMsg : List Char :=
  "An invalid driver name was provided".toList

/-- Error text of errors.New in initTables. -/
def noTablesMsg : List Char :=
  "no tables found in database".toList

/-- Embedding of errors.Wrap(err, msg): the message renders as the
context followed by a colon, a space, and the cause. -/
def wrap (msg e : List Char) : List Char :=
  msg ++ ": ".toList ++ e

/-- Message text of errors.Errorf in checkPKeys, applied to the joined
list of offending table names. -/
def pkeyErrMsg (names : List Char) : List Char :=
  "primary key missing in tables (".toList ++ names ++ ")".toList

/-- Loop of checkPKeys: collect, in order, the name of every table whose
PKey is nil. -/
def checkPKeysLoop : List Table → List (List Char)
  | [] => []
  | t :: rest =>
    if t.pkey = none then t.name :: checkPKeysLoop rest
    else checkPKeysLoop rest

/-- checkPKeys ensures every table has a primary key column; it returns
nil when none is missing and otherwise one aggregated error naming every
offending table. -/
def checkPKeys (tables : List Table) : Option (List Char) :=
  let missingPkey := checkPKeysLoop tables
  if missingPkey.length ≠ 0 then
    some (pkeyErrMsg (strJoin (", ".toList) missingPkey))
  else none

/-- State.initDriver: the switch on the driver flag sets the state's
Driver for the known names and leaves it unchanged (nil) otherwise; a
nil Driver afterwards is the invalid-driver error. -/
def State.initDriver (s : State) (driverName : List Char) :
    State × Option (List Char) :=
  let driver : Option Driver :=
    if driverName = "postgres".toList then
      some (Driver.postgres s.config.postgres.user s.config.postgres.pass
        s.config.postgres.dbname s.config.postgres.host
        s.config.postgres.port s.config.postgres.sslmode)
    else if driverName = "mock".toList then some Driver.mock
    else s.driver
  match driver with
  | none => ({ s with driver := driver }, some invalidDriverMsg)
  | some _ => ({ s with driver := driver }, none)

/-- State.initTables: store the result of bdb.Tables (supplied here as
an explicit input, since bdb is outside this core), fail when the fetch
failed (wrapped), fail when the table list is empty, then run
checkPKeys. -/
def State.initTables (s : State)
    (fetchResult : Except (List Char) (List Table)) :
    State × Option (List Char) :=
  match fetchResult with
  | .error e => ({ s with tables := [] }, some (wrap ("unable to fetch table data".toList) e))
  | .ok tables =>
    let s := { s with tables := tables }
    if s.tables.length = 0 then (s, some noTablesMsg)
    else
      match checkPKeys s.tables with
      | some e => (s, some e)
      | none => (s, none)

/-- Modelled from the spec: outcomes of the external calls New makes —
Driver.Open, bdb.Tables, os.MkdirAll for the output folder, and the
template loading of initTemplates — none of which live in this core. -/
structure Env where
  openErr : Option (List Char)
  fetchResult : Except (List Char) (List Table)
  mkdirErr : Option (List Char)
  templatesErr : Option (List Char)

/-- Result of New: the returned State pointer (none on failure, as Go
returns nil) and error, together with which later stages were reached,
recording that each failure aborts the remaining stages. -/
structure NewResult where
  state : Option State
  err : Option (List Char)
  ranOpen : Bool
  ranInitTables : Bool
  ranOutFolder : Bool
  ranInitTemplates : Bool

/-- New creates a new state based off of the config: select the driver,
open the connection, initialize tables, create the output folder, load
the templates, failing fast with a stage-tagged wrapped error. -/
def New (config : Config) (env : Env) : NewResult :=
  let s : State := { config := config, driver := none, tables := [] }
  match State.initDriver s config.driverName with
  | (_, some e) => ⟨none, some e, false, false, false, false⟩
  | (s, none) =>
    match env.openErr with
    | some e =>
      ⟨none, some (wrap ("unable to connect to the database".toList) e),
        true, false, false, false⟩
    | none =>
      match State.initTables s env.fetchResult with
      | (_, some e) =>
        ⟨none, some (wrap ("unable to initialize tables".toList) e),
          true, true, false, false⟩
      | (s, none) =>
        match env.mkdirErr with
        | some e =>
          ⟨none, some (wrap ("unable to initialize the output folder".toList) e),
            true, true, true, false⟩
        | none =>
          match env.templatesErr with
          | some e =>
            ⟨none, some (wrap ("unable to initialize templates".toList) e),
              true, true, true, true⟩
          | none => ⟨some s, none, true, true, true, true⟩

/-- Modelled from the spec: the template data handed to the render
calls — the full table list, the per-table table when present, and the
driver and package toggles Run copies out of the State. -/
structure TemplateData where
  tables : List Table
  table : Option Table
  driverName : List Char
  useLastInsertID : Bool
  pkgName : List Char
  noHooks : Bool
deriving DecidableEq

/-- Which generate function Run invoked. -/
inductive RenderKind
  | singleton
  | testMain
  | singletonTest
  | table
  | tableTest
deriving DecidableEq

/-- One render invocation Run performed: the generate function and the
template data passed to it. -/
structure RenderCall where
  kind : RenderKind
  data : TemplateData
deriving DecidableEq

/-- The template data Run builds before the singleton render: the full
table list and no per-table entry.  The useLastInsertID flag is the
value of s.Driver.UseLastInsertID(), supplied as an input since the
concrete drivers live outside this core. -/
def singletonDataOf (s : State) (ulid : Bool) : TemplateData :=
  { tables := s.tables, table := none, driverName := s.config.driverName,
    useLastInsertID := ulid, pkgName := s.config.pkgName,
    noHooks := s.config.noHooks }

/-- The template data Run builds inside the per-table loop: the full
table list plus the current table. -/
def tableDataOf (s : State) (ulid : Bool) (t : Table) : TemplateData :=
  { tables := s.tables, table := some t, driverName := s.config.driverName,
    useLastInsertID := ulid, pkgName := s.config.pkgName,
    noHooks := s.config.noHooks }

/-- The per-table loop of Run: skip join tables, render the regular
templates, and when tests are included render the test templates; the
first failing render aborts with its wrapped error.  The renderErr input
models the outcomes of the generate functions, which live outside this
core; the returned list records the render calls made, in order. -/
def runTableLoop (s : State) (ulid includeTests : Bool)
    (renderErr : RenderCall → Option (List Char)) :
    List Table → List RenderCall × Option (List Char)
  | [] => ([], none)
  | t :: rest =>
    if t.isJoinTable then runTableLoop s ulid includeTests renderErr rest
    else
      let data := tableDataOf s ulid t
      let c1 : RenderCall := ⟨RenderKind.table, data⟩
      match renderErr c1 with
      | some e => ([c1], some (wrap ("unable to generate output".toList) e))
      | none =>
        if includeTests then
          let c2 : RenderCall := ⟨RenderKind.tableTest, data⟩
          match renderErr c2 with
          | some e =>
            ([c1, c2], some (wrap ("unable to generate test output".toList) e))
          | none =>
            let rec2 := runTableLoop s ulid includeTests renderErr rest
            (c1 :: c2 :: rec2.1, rec2.2)
        else
          let rec2 := runTableLoop s ulid includeTests renderErr rest
          (c1 :: rec2.1, rec2.2)

/-- State.Run executes the sqlboiler templates: the singleton templates
once against the full table list, then (when tests are included) the
TestMain harness and the singleton test templates, then the per-table
loop. -/
def State.Run (s : State) (ulid includeTests : Bool)
    (renderErr : RenderCall → Option (List Char)) :
    List RenderCall × Option (List Char) :=
  let singletonData := singletonDataOf s ulid
  let c0 : RenderCall := ⟨RenderKind.singleton, singletonData⟩
  match renderErr c0 with
  | some e => ([c0], some (wrap ("singleton template output".toList) e))
  | none =>
    if includeTests then
      let c1 : RenderCall := ⟨RenderKind.testMain, singletonData⟩
      match renderErr c1 with
      | some e =>
        ([c0, c1], some (wrap ("unable to generate TestMain output".toList) e))
      | none =>
        let c2 : RenderCall := ⟨RenderKind.singletonTest, singletonData⟩
        match renderErr c2 with
        | some e =>
          ([c0, c1, c2],
            some (wrap ("unable to generate singleton test template output".toList) e))
        | none =>
          let rec2 := runTableLoop s ulid includeTests renderErr s.tables
          (c0 :: c1 :: c2 :: rec2.1, rec2.2)
    else
      let rec2 := runTableLoop s ulid includeTests renderErr s.tables
      (c0 :: rec2.1, rec2.2)

/-- Spec-side render plan: the singleton render, the test renders when
included, then for every non-join table in order the per-table render
followed by its test render when included. -/
def runSpecTrace (s : State) (ulid includeTests : Bool) : List RenderCall :=
  ⟨RenderKind.singleton, singletonDataOf s ulid⟩ ::
    ((if includeTests then
        [⟨RenderKind.testMain, singletonDataOf s ulid⟩,
         ⟨RenderKind.singletonTest, singletonDataOf s ulid⟩]
      else []) ++
      (s.tables.filter fun t => !t.isJoinTable).flatMap fun t =>
        ⟨RenderKind.table, tableDataOf s ulid t⟩ ::
          (if includeTests then [⟨RenderKind.tableTest, tableDataOf s ulid t⟩] else []))

/-- A call into the driver recorded by Cleanup. -/
inductive DriverCall
  | closeCall
deriving DecidableEq

/-- Cleanup closes any resources that must be closed: it calls the
driver's Close and returns nil.  The closeFails input models any failure
the underlying close might encounter; the method never surfaces one. -/
def State.Cleanup (s : State) (closeFails : Bool) :
    List DriverCall × Option (List Char) :=
  ([DriverCall.closeCall], none)

/-- The import path getBasePath resolves through go/build. -/
def basePackage : List Char := "github.com/vattle/sqlboiler".toList

/-- Modelled from the spec: the outcome of build.Default.Import on the
base package — whether a package object came back (p != nil) and its
Dir. -/
structure ImportResult where
  found : Bool
  dir : List Char
deriving DecidableEq

/-- getBasePath: a non-empty configured base directory wins; otherwise
the package install directory found by go/build when it is non-empty;
otherwise the result of os.Getwd (supplied as an input). -/
def getBasePath (imp : ImportResult) (getwd : Except (List Char) (List Char))
    (baseDirConfig : List Char) : Except (List Char) (List Char) :=
  if 0 < baseDirConfig.length then Except.ok baseDirConfig
  else if imp.found = true ∧ 0 < imp.dir.length then Except.ok imp.dir
  else getwd

/-- Example primary key for concrete witnesses. -/
def pkeyEx : PrimaryKey := ⟨"pkey".toList, ["id".toList]⟩

/-- Example table without a primary key. -/
def tableT1Ex : Table := ⟨"T1".toList, none, false⟩

/-- Example table with a primary key. -/
def tableT2Ex : Table := ⟨"T2".toList, some pkeyEx, false⟩

/-- Example join table. -/
def tableJoinEx : Table := ⟨"video_tags".toList, some pkeyEx, true⟩

/-- Example postgres connection parameters. -/
def pgCfgEx : PostgresConfig :=
  ⟨"u".toList, "p".toList, "db".toList, "h".toList, 5432, "disable".toList⟩

/-- Example config selecting the mock driver. -/
def cfgMockEx : Config :=
  { driverName := "mock".toList, pkgName := "models".toList,
    outFolder := "out".toList, baseDir := [], excludeTables := [],
    noHooks := false, postgres := pgCfgEx }

/-- Example config with an unknown driver name. -/
def cfgBogusEx : Config := { cfgMockEx with driverName := "bogus".toList }

/-- Example environment where every external call succeeds. -/
def envOkEx : Env :=
  { openErr := none, fetchResult := Except.ok [tableT2Ex],
    mkdirErr := none, templatesErr := none }

/-- Example environment where Open fails. -/
def envOpenFailEx : Env := { envOkEx with openErr := some ("boom".toList) }

/-- Example environment where introspection yields zero tables. -/
def envNoTablesEx : Env := { envOkEx with fetchResult := Except.ok [] }

/-- Example state for exercising Run. -/
def stateRunEx : State :=
  { config := cfgMockEx, driver := some Driver.mock,
    tables := [tableT2Ex, tableJoinEx] }

theorem splitOnDot_ne_nil (s : List Char) : splitOnDot s ≠ [] := by
  cases s with
  | nil => simp [splitOnDot]
  | cons c rest =>
    simp only [splitOnDot]
    by_cases h : c = '.'
    · simp [h]
    · simp only [if_neg h]
      cases splitOnDot rest <;> simp

theorem splitOnDot_of_not_mem (s : List Char) (h : '.' ∉ s) : splitOnDot s = [s] := by
  induction s with
  | nil => rfl
  | cons c rest ih =>
    simp only [List.mem_cons, not_or] at h
    simp only [splitOnDot]
    rw [if_neg (fun hc => h.1 hc.symm), ih h.2]

theorem two_le_splitOnDot_length (s : List Char) (h : '.' ∈ s) :
    2 ≤ (splitOnDot s).length := by
  induction s with
  | nil => simp at h
  | cons c rest ih =>
    simp only [splitOnDot]
    by_cases hc : c = '.'
    · simp only [if_pos hc, List.length_cons]
      have hne := splitOnDot_ne_nil rest
      have hpos : 0 < (splitOnDot rest).length := List.length_pos.mpr hne
      omega
    · have hr : '.' ∈ rest := by
        rcases List.mem_cons.mp h with h1 | h1
        · exact absurd h1.symm hc
        · exact h1
      have h2 := ih hr
      simp only [if_neg hc]
      obtain ⟨x, xs, hsp⟩ : ∃ x xs, splitOnDot rest = x :: xs := by
        cases hval : splitOnDot rest with
        | nil => exact absurd hval (splitOnDot_ne_nil rest)
        | cons x xs => exact ⟨x, xs, rfl⟩
      rw [hsp]
      rw [hsp] at h2
      simp only [List.length_cons] at h2 ⊢
      omega

theorem not_mem_of_mem_splitOnDot (s x : List Char) (hx : x ∈ splitOnDot s) :
    '.' ∉ x := by
  induction s generalizing x with
  | nil =>
    simp only [splitOnDot, List.mem_singleton] at hx
    simp [hx]
  | cons c rest ih =>
    simp only [splitOnDot] at hx
    by_cases hc : c = '.'
    · rw [if_pos hc] at hx
      rcases List.mem_cons.mp hx with h1 | h1
      · simp [h1]
      · exact ih x h1
    · rw [if_neg hc] at hx
      obtain ⟨y, ys, hsp⟩ : ∃ y ys, splitOnDot rest = y :: ys := by
        cases hval : splitOnDot rest with
        | nil => exact absurd hval (splitOnDot_ne_nil rest)
        | cons y ys => exact ⟨y, ys, rfl⟩
      rw [hsp] at hx
      rcases List.mem_cons.mp hx with h1 | h1
      · subst h1
        intro hmem
        rcases List.mem_cons.mp hmem with h2 | h2
        · exact hc h2.symm
        · exact ih y (hsp ▸ List.mem_cons_self y ys) h2
      · exact ih x (hsp ▸ List.mem_cons_of_mem y h1)

theorem strJoin_splitOnDot (s : List Char) : strJoin ['.'] (splitOnDot s) = s := by
  induction s with
  | nil => rfl
  | cons c rest ih =>
    simp only [splitOnDot]
    by_cases hc : c = '.'
    · rw [if_pos hc]
      obtain ⟨y, ys, hsp⟩ : ∃ y ys, splitOnDot rest = y :: ys := by
        cases hval : splitOnDot rest with
        | nil => exact absurd hval (splitOnDot_ne_nil rest)
        | cons y ys => exact ⟨y, ys, rfl⟩
      rw [hsp]
      rw [hsp] at ih
      simp only [strJoin, List.nil_append, List.singleton_append]
      rw [ih, hc]
    · rw [if_neg hc]
      obtain ⟨y, ys, hsp⟩ : ∃ y ys, splitOnDot rest = y :: ys := by
        cases hval : splitOnDot rest with
        | nil => exact absurd hval (splitOnDot_ne_nil rest)
        | cons y ys => exact ⟨y, ys, rfl⟩
      rw [hsp]
      rw [hsp] at ih
      cases ys with
      | nil =>
        simp only [strJoin] at ih ⊢
        rw [ih]
      | cons z zs =>
        simp only [strJoin, List.cons_append] at ih ⊢
        rw [ih]

theorem splitOnDot_append (a b : List Char) (ha : '.' ∉ a) :
    splitOnDot (a ++ '.' :: b) = a :: splitOnDot b := by
  induction a with
  | nil =>
    simp [splitOnDot]
  | cons c cs ih =>
    simp only [List.mem_cons, not_or] at ha
    simp only [List.cons_append, splitOnDot, List.append_eq]
    rw [if_neg (fun hc => ha.1 hc.symm), ih ha.2]

theorem splitOnDot_eq_pair_iff (i a b : List Char) :
    splitOnDot i = [a, b] ↔
      a.contains '.' = false ∧ b.contains '.' = false ∧ i = a ++ '.' :: b := by
  constructor
  · intro h
    have ha : '.' ∉ a := not_mem_of_mem_splitOnDot i a (by rw [h]; simp)
    have hb : '.' ∉ b := not_mem_of_mem_splitOnDot i b (by rw [h]; simp)
    refine ⟨by simpa using ha, by simpa using hb, ?_⟩
    have hj := strJoin_splitOnDot i
    rw [h] at hj
    simp only [strJoin] at hj
    rw [← hj]
    simp
  · rintro ⟨ha, hb, rfl⟩
    have ha2 : '.' ∉ a := by simpa using ha
    have hb2 : '.' ∉ b := by simpa using hb
    rw [splitOnDot_append a b ha2, splitOnDot_of_not_mem b hb2]

theorem tablesFromListLoop_eq (l : List (List Char)) :
    tablesFromListLoop l = l.filter fun i => !(i.contains '.') := by
  induction l with
  | nil => rfl
  | cons i rest ih =>
    simp only [tablesFromListLoop]
    by_cases h : '.' ∈ i
    · have h2 := two_le_splitOnDot_length i h
      rw [if_neg (by omega), List.filter_cons]
      have hc : (!(i.contains '.')) = false := by simp [h]
      rw [hc, ih]
      simp
    · rw [splitOnDot_of_not_mem i h, List.filter_cons]
      have hc : (!(i.contains '.')) = true := by simp [h]
      rw [hc]
      simp [ih]

theorem columnsFromListLoop_eq (t : List Char) (l : List (List Char)) :
    columnsFromListLoop t l = l.filterMap (colMatch t) := by
  induction l with
  | nil => rfl
  | cons i rest ih =>
    simp only [columnsFromListLoop, List.filterMap_cons, colMatch]
    obtain ⟨x, xs, hsp⟩ : ∃ x xs, splitOnDot i = x :: xs := by
      cases hval : splitOnDot i with
      | nil => exact absurd hval (splitOnDot_ne_nil i)
      | cons x xs => exact ⟨x, xs, rfl⟩
    rw [hsp]
    cases xs with
    | nil => simp [ih]
    | cons y ys =>
      cases ys with
      | nil =>
        by_cases hm : x = t ∨ x = ['*']
        · simp [hm, ih]
        · simp [hm, ih]
      | cons z zs => simp [ih]

/-- C1: TablesFromList returns, in input order, exactly the specifiers
that contain no dot separator; specifiers with two or more segments are
excluded; an empty input yields the empty result rather than an error;
and the documented example keeps only the single-segment entry. -/
theorem C1_tablesFromList :
    (∀ l, TablesFromList l = l.filter fun i => !(i.contains '.')) ∧
    TablesFromList ["a.b".toList, "b".toList, "c.d".toList] = ["b".toList] ∧
    TablesFromList [] = [] := by
  refine ⟨fun l => ?_, by decide, rfl⟩
  cases l with
  | nil => rfl
  | cons i rest =>
    simp only [TablesFromList, List.length_cons]
    rw [if_neg (Nat.succ_ne_zero _)]
    exact tablesFromListLoop_eq _

/-- C2: ColumnsFromList returns, in input order, the column segment of
every specifier with exactly two dot-separated segments whose table
segment equals the given table name or the wildcard star, with exact
case-sensitive matching; every other segment count is ignored; empty
input yields the empty result; the wildcard example and a
case-sensitivity example hold.  The second conjunct pins the meaning of
"exactly two segments": the specifier is a dot-free table part, a dot,
and a dot-free column part. -/
theorem C2_columnsFromList :
    (∀ l t, ColumnsFromList l t = l.filterMap (colMatch t)) ∧
    (∀ i a b, splitOnDot i = [a, b] ↔
      a.contains '.' = false ∧ b.contains '.' = false ∧ i = a ++ '.' :: b) ∧
    ColumnsFromList ["*.b".toList, "b".toList, "c.d".toList] ("c".toList)
      = ["b".toList, "d".toList] ∧
    ColumnsFromList ["C.d".toList] ("c".toList) = [] ∧
    ColumnsFromList [] ("c".toList) = [] := by
  refine ⟨fun l t => ?_, splitOnDot_eq_pair_iff, by decide, by decide, rfl⟩
  cases l with
  | nil => rfl
  | cons i rest =>
    simp only [ColumnsFromList, List.length_cons]
    rw [if_neg (Nat.succ_ne_zero _)]
    exact columnsFromListLoop_eq t _

theorem checkPKeysLoop_eq (tables : List Table) :
    checkPKeysLoop tables =
      (tables.filter fun t => t.pkey.isNone).map Table.name := by
  induction tables with
  | nil => rfl
  | cons t rest ih =>
    simp only [checkPKeysLoop, List.filter_cons]
    by_cases h : t.pkey = none
    · simp [h, ih]
    · simp [h, ih, Option.isNone_iff_eq_none]

/-- C3: checkPKeys scans every table without short-circuiting: it
returns nil exactly when every table has a primary key, and otherwise
one aggregated error whose message names, in order, every table lacking
a primary key and only those; on the documented example with T1 missing
a key and T2 having one it names exactly T1. -/
theorem C3_checkPKeys :
    (∀ tables, checkPKeysLoop tables =
      (tables.filter fun t => t.pkey.isNone).map Table.name) ∧
    (∀ tables, (checkPKeys tables = none ↔
      (tables.all fun t => t.pkey.isSome) = true)) ∧
    (∀ tables, checkPKeys tables =
      if ((tables.filter fun t => t.pkey.isNone).map Table.name) = [] then none
      else some (pkeyErrMsg (strJoin (", ".toList)
        ((tables.filter fun t => t.pkey.isNone).map Table.name)))) ∧
    checkPKeys [tableT1Ex, tableT2Ex] = some (pkeyErrMsg ("T1".toList)) := by
  have h3 : ∀ tables, checkPKeys tables =
      if ((tables.filter fun t => t.pkey.isNone).map Table.name) = [] then none
      else some (pkeyErrMsg (strJoin (", ".toList)
        ((tables.filter fun t => t.pkey.isNone).map Table.name))) := by
    intro tables
    simp only [checkPKeys, checkPKeysLoop_eq]
    by_cases h : ((tables.filter fun t => t.pkey.isNone).map Table.name) = []
    · simp [h]
    · rw [if_pos, if_neg h]
      intro hlen
      exact h (List.length_eq_zero.mp hlen)
  refine ⟨checkPKeysLoop_eq, fun tables => ?_, h3, by decide⟩
  rw [h3 tables]
  by_cases h : ((tables.filter fun t => t.pkey.isNone).map Table.name) = []
  · simp only [h, if_pos rfl]
    simp only [List.map_eq_nil_iff, List.filter_eq_nil_iff] at h
    simp only [List.all_eq_true]
    constructor
    · intro _ t ht
      have := h t ht
      simpa [Option.isNone_iff_eq_none, Option.isSome_iff_ne_none] using this
    · intro _
      rfl
  · simp only [h, if_neg h]
    simp only [List.map_eq_nil_iff, List.filter_eq_nil_iff] at h
    push_neg at h
    obtain ⟨t, ht, hnone⟩ := h
    constructor
    · intro hcontra
      exact absurd hcontra (by simp)
    · intro hall
      exfalso
      rw [List.all_eq_true] at hall
      have := hall t ht
      simp only [Option.isSome_iff_ne_none] at this
      simp only [Option.isNone_iff_eq_none] at hnone
      exact (by simpa [hnone] using this)

theorem initDriver_known (s : State) (name : List Char)
    (h : name = "mock".toList ∨ name = "postgres".toList) :
    ∃ d, State.initDriver s name = ({ s with driver := some d }, none) := by
  rcases h with h | h <;> subst h
  · exact ⟨Driver.mock, by simp [State.initDriver]⟩
  · exact ⟨Driver.postgres s.config.postgres.user s.config.postgres.pass
      s.config.postgres.dbname s.config.postgres.host s.config.postgres.port
      s.config.postgres.sslmode, by simp [State.initDriver]⟩

/-- C6: for every driver name that is not a known backend identifier,
initDriver reports the invalid-driver error and leaves no driver set on
the State, and New aborts with that error before Open is ever
called. -/
theorem C6_initDriver_invalid (config : Config) (env : Env)
    (h1 : config.driverName ≠ "postgres".toList)
    (h2 : config.driverName ≠ "mock".toList) :
    (State.initDriver ⟨config, none, []⟩ config.driverName).2
        = some invalidDriverMsg ∧
    (State.initDriver ⟨config, none, []⟩ config.driverName).1.driver = none ∧
    (New config env).state = none ∧
    (New config env).err = some invalidDriverMsg ∧
    (New config env).ranOpen = false := by
  have hd : State.initDriver ⟨config, none, []⟩ config.driverName =
      (⟨config, none, []⟩, some invalidDriverMsg) := by
    simp only [State.initDriver]
    rw [if_neg h1, if_neg h2]
  refine ⟨by rw [hd], by rw [hd], ?_, ?_, ?_⟩ <;>
    · simp only [New, hd]

/-- C6 witness: a concrete unknown driver name is rejected before Open
runs. -/
theorem C6_witness :
    (State.initDriver ⟨cfgBogusEx, none, []⟩ cfgBogusEx.driverName).2
        = some invalidDriverMsg ∧
    (State.initDriver ⟨cfgBogusEx, none, []⟩ cfgBogusEx.driverName).1.driver
        = none ∧
    (New cfgBogusEx envOkEx).state = none ∧
    (New cfgBogusEx envOkEx).err = some invalidDriverMsg ∧
    (New cfgBogusEx envOkEx).ranOpen = false :=
  C6_initDriver_invalid cfgBogusEx envOkEx (by decide) (by decide)

/-- C4: when introspection yields zero tables, initTables fails with the
no-tables error, New reports that error wrapped with its stage tag and
returns no State, and neither the output-folder stage nor the template
stage runs. -/
theorem C4_initTables_empty (config : Config) (env : Env) (s : State)
    (hdrv : config.driverName = "mock".toList
      ∨ config.driverName = "postgres".toList)
    (hopen : env.openErr = none)
    (hfetch : env.fetchResult = Except.ok []) :
    (State.initTables s (Except.ok [])).2 = some noTablesMsg ∧
    (New config env).err
        = some (wrap ("unable to initialize tables".toList) noTablesMsg) ∧
    (New config env).state = none ∧
    (New config env).ranOutFolder = false ∧
    (New config env).ranInitTemplates = false := by
  obtain ⟨d, hd⟩ :=
    initDriver_known { config := config, driver := none, tables := [] }
      config.driverName hdrv
  have htab : ∀ s2 : State,
      State.initTables s2 (Except.ok ([] : List Table))
        = ({ s2 with tables := [] }, some noTablesMsg) := by
    intro s2
    simp [State.initTables]
  refine ⟨by simp [htab s], ?_, ?_, ?_, ?_⟩ <;>
    · simp only [New, hd, hopen, hfetch, htab]

/-- C4 witness: a concrete successful mock configuration whose fetch
returns zero tables fails as stated. -/
theorem C4_witness :
    (State.initTables ⟨cfgMockEx, some Driver.mock, []⟩ (Except.ok [])).2
        = some noTablesMsg ∧
    (New cfgMockEx envNoTablesEx).err
        = some (wrap ("unable to initialize tables".toList) noTablesMsg) ∧
    (New cfgMockEx envNoTablesEx).state = none ∧
    (New cfgMockEx envNoTablesEx).ranOutFolder = false ∧
    (New cfgMockEx envNoTablesEx).ranInitTemplates = false :=
  C4_initTables_empty cfgMockEx envNoTablesEx ⟨cfgMockEx, some Driver.mock, []⟩
    (Or.inl rfl) rfl rfl

/-- C8 counterexample: with the mock driver selected and Open failing,
New returns no State at all (the Go code returns nil), so the caller is
not handed a State carrying the selected driver on which Cleanup could
release the connection. -/
theorem C8_counterexample :
    (New cfgMockEx envOpenFailEx).state = none ∧
    (New cfgMockEx envOpenFailEx).err
        = some (wrap ("unable to connect to the database".toList)
            ("boom".toList)) := by
  constructor <;> rfl

/-- C8 amended: on every configuration, New returns no State exactly
when it returns an error — any stage failure after driver selection
yields a nil State, so the selected driver is not handed back to the
caller and Cleanup cannot be invoked on the result of New. -/
theorem C8_new_amended (config : Config) (env : Env) :
    ((New config env).state = none ↔ (New config env).err.isSome = true) := by
  unfold New
  dsimp only
  rcases hd : State.initDriver { config := config, driver := none, tables := [] }
      config.driverName with ⟨s1, e1⟩
  cases e1 with
  | some e => simp
  | none =>
    cases ho : env.openErr with
    | some e => simp
    | none =>
      rcases ht : State.initTables s1 env.fetchResult with ⟨s2, e2⟩
      cases e2 with
      | some e => simp [ht]
      | none =>
        cases hm : env.mkdirErr with
        | some e => simp [ht]
        | none =>
          cases htp : env.templatesErr with
          | some e => simp [ht]
          | none => simp [ht]

theorem runTableLoop_eq (s : State) (ulid includeTests : Bool)
    (renderErr : RenderCall → Option (List Char))
    (h : ∀ c, renderErr c = none) (ts : List Table) :
    runTableLoop s ulid includeTests renderErr ts =
      ((ts.filter fun t => !t.isJoinTable).flatMap fun t =>
        ⟨RenderKind.table, tableDataOf s ulid t⟩ ::
          (if includeTests then [⟨RenderKind.tableTest, tableDataOf s ulid t⟩]
           else []),
       none) := by
  induction ts with
  | nil => simp [runTableLoop]
  | cons t rest ih =>
    by_cases hj : t.isJoinTable
    · simp [runTableLoop, hj, ih]
    · cases includeTests with
      | true => simp [runTableLoop, hj, h, ih]
      | false => simp [runTableLoop, hj, h, ih]

theorem run_eq_of_renderOk (s : State) (ulid it : Bool)
    (renderErr : RenderCall → Option (List Char))
    (h : ∀ c, renderErr c = none) :
    State.Run s ulid it renderErr = (runSpecTrace s ulid it, none) := by
  have hloop := runTableLoop_eq s ulid it renderErr h s.tables
  cases it with
  | false =>
    simp only [State.Run, h, hloop, runSpecTrace]
    simp
  | true =>
    simp only [State.Run, h, hloop, runSpecTrace]
    simp

/-- C5: with every render succeeding, Run renders the singleton
templates once against the full table list — which includes the join
tables — renders the test harness and the singleton tests exactly when
tests are included, and renders per-table output (plus per-table tests
only when tests are included) for exactly the non-join tables in order;
every per-table render is for a non-join table, and with tests excluded
no test-oriented render happens at all. -/
theorem C5_run_render_plan (s : State) (ulid includeTests : Bool)
    (renderErr : RenderCall → Option (List Char))
    (h : ∀ c, renderErr c = none) :
    State.Run s ulid includeTests renderErr
      = (runSpecTrace s ulid includeTests, none) ∧
    (singletonDataOf s ulid).tables = s.tables ∧
    (∀ c ∈ (State.Run s ulid includeTests renderErr).1,
      c.kind = RenderKind.table →
        ∃ t, t ∈ s.tables ∧ t.isJoinTable = false
          ∧ c.data = tableDataOf s ulid t) ∧
    (∀ c ∈ (State.Run s ulid false renderErr).1,
      c.kind ≠ RenderKind.testMain ∧ c.kind ≠ RenderKind.singletonTest ∧
      c.kind ≠ RenderKind.tableTest) := by
  refine ⟨run_eq_of_renderOk s ulid includeTests renderErr h, rfl, ?_, ?_⟩
  · intro c hc hk
    rw [run_eq_of_renderOk s ulid includeTests renderErr h] at hc
    simp only [runSpecTrace] at hc
    rcases List.mem_cons.mp hc with hc | hc
    · subst hc
      simp at hk
    · rcases List.mem_append.mp hc with hc | hc
      · cases includeTests with
        | false => simp at hc
        | true =>
          rw [if_pos rfl] at hc
          rcases List.mem_cons.mp hc with hc | hc
          · subst hc; simp at hk
          · rw [List.mem_singleton] at hc
            subst hc; simp at hk
      · obtain ⟨t, htf, hct⟩ := List.mem_flatMap.mp hc
        obtain ⟨htmem, htj⟩ := List.mem_filter.mp htf
        rcases List.mem_cons.mp hct with hc1 | hc2
        · subst hc1
          exact ⟨t, htmem, by simpa using htj, rfl⟩
        · cases includeTests with
          | false => simp at hc2
          | true =>
            rw [if_pos rfl, List.mem_singleton] at hc2
            subst hc2
            simp at hk
  · intro c hc
    rw [run_eq_of_renderOk s ulid false renderErr h] at hc
    simp only [runSpecTrace] at hc
    rcases List.mem_cons.mp hc with hc | hc
    · subst hc
      exact ⟨by simp, by simp, by simp⟩
    · rcases List.mem_append.mp hc with hc | hc
      · simp at hc
      · obtain ⟨t, htf, hct⟩ := List.mem_flatMap.mp hc
        rcases List.mem_cons.mp hct with hc1 | hc2
        · subst hc1
          exact ⟨by simp, by simp, by simp⟩
        · simp at hc2

/-- C5 witness: the render plan at a concrete state with one entity
table and one join table, with tests included. -/
theorem C5_witness :
    State.Run stateRunEx true true (fun _ => none)
      = (runSpecTrace stateRunEx true true, none) :=
  (C5_run_render_plan stateRunEx true true (fun _ => none) (fun _ => rfl)).1

/-- C7 counterexample: the claim says every configured value at most
zero falls back to the default, but DefaultInt applied to the negative
value -1 with default 10 returns -1, not the default. -/
theorem C7_counterexample :
    (-1 : Int) ≤ 0 ∧ DefaultInt (-1) 10 = -1 ∧ DefaultInt (-1) 10 ≠ 10 := by
  refine ⟨by decide, rfl, by decide⟩

/-- C7 amended: DefaultInt falls back to the documented default exactly
for the configured value zero; every nonzero configured value — the
positive ones in particular, but also the negative ones — is used
itself. -/
theorem C7_defaultInt_amended (v d : Int) (h : v ≠ 0) :
    DefaultInt v d = v ∧ DefaultInt 0 d = d := by
  constructor
  · simp [DefaultInt, h]
  · simp [DefaultInt]

/-- C7 witness: the amended behaviour at a concrete positive value. -/
theorem C7_witness : DefaultInt 7 10 = 7 ∧ DefaultInt 0 10 = 10 :=
  C7_defaultInt_amended 7 10 (by decide)

/-- C9 counterexample: with an empty configured base directory and the
base package resolving to a non-empty install directory, getBasePath
returns that ambient package-manager install location, not the current
working directory. -/
theorem C9_counterexample :
    getBasePath ⟨true, "/go/src/github.com/vattle/sqlboiler".toList⟩
        (Except.ok ("/work".toList)) []
      = Except.ok ("/go/src/github.com/vattle/sqlboiler".toList) ∧
    "/go/src/github.com/vattle/sqlboiler".toList ≠ "/work".toList :=
  ⟨rfl, by decide⟩

/-- C9 amended: getBasePath uses the caller-supplied base directory
whenever it is non-empty; with an empty one it returns the go/build
install directory of the base package whenever that lookup finds a
package with a non-empty directory, and falls back to the current
working directory only otherwise. -/
theorem C9_getBasePath_amended (imp : ImportResult)
    (getwd : Except (List Char) (List Char)) (baseDirConfig : List Char) :
    (0 < baseDirConfig.length →
      getBasePath imp getwd baseDirConfig = Except.ok baseDirConfig) ∧
    (baseDirConfig = [] → imp.found = true → 0 < imp.dir.length →
      getBasePath imp getwd baseDirConfig = Except.ok imp.dir) ∧
    (baseDirConfig = [] → (imp.found = false ∨ imp.dir = []) →
      getBasePath imp getwd baseDirConfig = getwd) := by
  refine ⟨fun hb => ?_, fun hb hf hd => ?_, fun hb hfd => ?_⟩
  · simp [getBasePath, hb]
  · subst hb
    simp [getBasePath, hf, hd]
  · subst hb
    rcases hfd with hf | hd
    · simp [getBasePath, hf]
    · simp [getBasePath, hd]

/-- C9 witness: concrete instances of the three amended branches. -/
theorem C9_witness :
    getBasePath ⟨false, []⟩ (Except.ok ("/work".toList)) ("/base".toList)
      = Except.ok ("/base".toList) ∧
    getBasePath ⟨true, "/pkg".toList⟩ (Except.ok ("/work".toList)) []
      = Except.ok ("/pkg".toList) ∧
    getBasePath ⟨false, []⟩ (Except.ok ("/work".toList)) []
      = Except.ok ("/work".toList) :=
  ⟨(C9_getBasePath_amended ⟨false, []⟩ (Except.ok ("/work".toList))
      ("/base".toList)).1 (by decide),
   (C9_getBasePath_amended ⟨true, "/pkg".toList⟩ (Except.ok ("/work".toList))
      []).2.1 rfl rfl (by decide),
   (C9_getBasePath_amended ⟨false, []⟩ (Except.ok ("/work".toList))
      []).2.2 rfl (Or.inl rfl)⟩

/-- C10: Cleanup invokes the driver's Close and always returns nil,
whatever failure indication the underlying close might produce. -/
theorem C10_cleanup (s : State) (closeFails : Bool) :
    (State.Cleanup s closeFails).2 = none ∧
    (State.Cleanup s closeFails).1 = [DriverCall.closeCall] :=
  ⟨rfl, rfl⟩
